import Mathlib

/-!
# mcp-hub: shallow embedding and verification of the tool-aggregation core

This file embeds, in Lean 4, the parts of the mcp-hub repository that the
verified claims are about:

* the tool registry (`internal/registry/registry.go`): tool map, subscriber
  channels, best-effort broadcast;
* the plugin manager (`internal/plugin/manager.go`): `StartServer`,
  `StopServer`, `Execute`, the projection of discovered tools into registry
  tools;
* the config model and reconciler (`internal/config/config.go`,
  `internal/watcher/watcher.go`): `processEnvVars`, `Validate`,
  `TransportType`, `configEqual`, `applyConfigChanges`, `handleConfigChange`;
* the line-oriented transports (`internal/transport/stdio.go`,
  `internal/transport/docker.go`): `SendRequest` with its timeout selection;
* the SSE transport reader (`internal/transport/sse.go`):
  `handleSSEMessage` and its correlation table.

Go maps are modelled as association lists with insert-or-replace semantics
(Go map iteration order is unspecified; the model fixes insertion order and
all order-sensitive claims are stated order-insensitively).  Go channels of
capacity 1 are modelled as `Option` buffers; a non-blocking send on a full
buffer is a drop.  External I/O (process spawning, HTTP, JSON (de)serialization
of opaque payloads, the operating-system environment) is passed in as explicit
parameters, so every definition is executable.
-/

set_option autoImplicit false

namespace MCPHub

/-! ## Association-list model of Go maps -/

/-- `m[k] = v` on a Go map: replace the first binding of `k`, else append. -/
def setKey {κ β : Type} [DecidableEq κ] : List (κ × β) → κ → β → List (κ × β)
  | [], k, v => [(k, v)]
  | p :: m, k, v => if p.1 = k then (k, v) :: m else p :: setKey m k v

/-- `m[k]` lookup on a Go map (first binding wins). -/
def lookupKey {κ β : Type} [DecidableEq κ] : List (κ × β) → κ → Option β
  | [], _ => none
  | p :: m, k => if p.1 = k then some p.2 else lookupKey m k

/-- `delete(m, k)` on a Go map. -/
def removeKey {κ β : Type} [DecidableEq κ] (m : List (κ × β)) (k : κ) : List (κ × β) :=
  m.filter fun p => p.1 ≠ k

theorem lookupKey_setKey {κ β : Type} [DecidableEq κ] (m : List (κ × β)) (k j : κ) (v : β) :
    lookupKey (setKey m k v) j = if k = j then some v else lookupKey m j := by
  induction m with
  | nil => simp [setKey, lookupKey]
  | cons p m ih =>
    by_cases hp : p.1 = k
    · simp only [setKey, hp, if_pos rfl, lookupKey]
      by_cases hj : k = j
      · simp [hj]
      · have : ¬ p.1 = j := by rw [hp]; exact hj
        simp [hj, this, lookupKey]
    · simp only [setKey, hp, if_neg hp, lookupKey]
      by_cases hj : p.1 = j
      · have : ¬ k = j := fun h => hp (by rw [hj, h])
        simp [hj, this]
      · simp [hj, ih]

theorem lookupKey_removeKey_self {κ β : Type} [DecidableEq κ] (m : List (κ × β)) (k : κ) :
    lookupKey (removeKey m k) k = none := by
  induction m with
  | nil => rfl
  | cons p m ih =>
    by_cases hp : p.1 = k
    · simpa [removeKey, hp] using ih
    · simpa [removeKey, lookupKey, hp] using ih

theorem lookupKey_isSome_of_mem {κ β : Type} [DecidableEq κ] {m : List (κ × β)} {k : κ} {v : β}
    (h : (k, v) ∈ m) : (lookupKey m k).isSome := by
  induction m with
  | nil => cases h
  | cons p m ih =>
    rcases List.mem_cons.mp h with h | h
    · simp [lookupKey, ← h]
    · by_cases hp : p.1 = k
      · simp [lookupKey, hp]
      · simpa [lookupKey, hp] using ih h

theorem lookupKey_eq_of_mem_nodup {κ β : Type} [DecidableEq κ] {m : List (κ × β)} {k : κ} {v : β}
    (hnd : (m.map Prod.fst).Nodup) (h : (k, v) ∈ m) : lookupKey m k = some v := by
  induction m with
  | nil => cases h
  | cons p m ih =>
    rcases List.mem_cons.mp h with h | h
    · simp [lookupKey, ← h]
    · have hk : k ∈ m.map Prod.fst := List.mem_map.mpr ⟨(k, v), h, rfl⟩
      have hp : p.1 ≠ k := by
        intro hpk
        exact (List.nodup_cons.mp hnd).1 (hpk ▸ hk)
      simpa [lookupKey, hp] using ih (List.nodup_cons.mp hnd).2 h

/-! ## Tool registry (`internal/registry/registry.go`) -/

/-- `registry.Tool`: a tool exposed by a plugin, as stored in the hub registry. -/
structure Tool where
  ID : String
  Name : String
  Description : String
  PluginID : String
deriving DecidableEq, Repr

/-- One subscriber stream: a `chan []Tool` of capacity 1.  `buf = some s` means a
snapshot `s` is queued and not yet consumed by the subscriber. -/
structure SubChan where
  buf : Option (List Tool)
deriving DecidableEq, Repr

/-- `registry.Registry`: the tool map plus the subscriber set.  (Both are guarded
by one lock in Go; the embedding is sequential.) -/
structure Registry where
  tools : List (String × Tool)
  subs : List SubChan
deriving DecidableEq, Repr

/-- `registry.New()`. -/
def Registry.empty : Registry := ⟨[], []⟩

/-- `sliceLocked`: the snapshot value handed to subscribers (`r.tools` values). -/
def sliceLocked (r : Registry) : List Tool := r.tools.map Prod.snd

/-- The `select { case ch <- snapshot: default: }` in `broadcastLocked`: a
non-blocking send on a capacity-1 channel fills an empty buffer and silently
drops the snapshot when the buffer is still full. -/
def sendBestEffort (snapshot : List Tool) (ch : SubChan) : SubChan :=
  match ch.buf with
  | none => ⟨some snapshot⟩
  | some s => ⟨some s⟩

/-- `broadcastLocked`: snapshot the map and offer it to every subscriber. -/
def broadcastLocked (r : Registry) : Registry :=
  { r with subs := r.subs.map (sendBestEffort (sliceLocked r)) }

/-- `Registry.RegisterTools`: stamp each tool with the owning plugin id, store it
keyed by its `ID` field, then broadcast. -/
def RegisterTools (r : Registry) (pluginID : String) (tools : List Tool) : Registry :=
  broadcastLocked
    { r with
      tools := tools.foldl (fun m t => setKey m t.ID { t with PluginID := pluginID }) r.tools }

/-- `Registry.UnregisterTools`: drop every tool owned by `pluginID`, then broadcast. -/
def UnregisterTools (r : Registry) (pluginID : String) : Registry :=
  broadcastLocked { r with tools := r.tools.filter fun p => p.2.PluginID ≠ pluginID }

/-- `Registry.Subscribe`: add a fresh capacity-1 channel and synchronously queue
the initial snapshot. -/
def Subscribe (r : Registry) : Registry :=
  { r with subs := r.subs ++ [⟨some (sliceLocked r)⟩] }

/-- The two registry mutations a session lifecycle performs. -/
inductive RegOp
  | register (pluginID : String) (tools : List Tool)
  | unregister (pluginID : String)

/-- Run one registry mutation. -/
def applyOp (r : Registry) : RegOp → Registry
  | .register p ts => RegisterTools r p ts
  | .unregister p => UnregisterTools r p

theorem tools_broadcastLocked (r : Registry) : (broadcastLocked r).tools = r.tools := rfl

theorem sliceLocked_applyOp_register (r : Registry) (p : String) (ts : List Tool) :
    sliceLocked (applyOp r (.register p ts)) =
      sliceLocked { r with
        tools := ts.foldl (fun m t => setKey m t.ID { t with PluginID := p }) r.tools } := rfl

/-- After any mutation, the subscriber list is the old list mapped through the
best-effort send of the final snapshot. -/
theorem subs_applyOp (r : Registry) (op : RegOp) :
    (applyOp r op).subs = r.subs.map (sendBestEffort (sliceLocked (applyOp r op))) := by
  cases op <;> rfl

/-! Characterizing the fold inside `RegisterTools`: for a fixed id, the stored
value is the last tool of the list carrying that id, stamped with the owner. -/

/-- The last write the `RegisterTools` loop performs at key `id` (accumulator
form; `acc` is the write produced by the part of the list already processed). -/
def lastWrite (o id : String) : List Tool → Option Tool → Option Tool
  | [], acc => acc
  | t :: ts, acc =>
      lastWrite o id ts (if t.ID = id then some { t with PluginID := o } else acc)

theorem lastWrite_acc (o id : String) (ts : List Tool) (acc : Option Tool) :
    lastWrite o id ts acc =
      match lastWrite o id ts none with
      | some v => some v
      | none => acc := by
  induction ts generalizing acc with
  | nil => simp [lastWrite]
  | cons t ts ih =>
    simp only [lastWrite]
    rw [ih (if t.ID = id then some { t with PluginID := o } else acc),
        ih (if t.ID = id then some { t with PluginID := o } else none)]
    cases lastWrite o id ts none with
    | some v => rfl
    | none => by_cases ht : t.ID = id <;> simp [ht]

theorem lookupKey_registerFold (o id : String) (ts : List Tool) (m : List (String × Tool)) :
    lookupKey (ts.foldl (fun m t => setKey m t.ID { t with PluginID := o }) m) id =
      match lastWrite o id ts none with
      | some v => some v
      | none => lookupKey m id := by
  induction ts generalizing m with
  | nil => simp [lastWrite]
  | cons t ts ih =>
    simp only [List.foldl_cons, lastWrite]
    rw [ih]
    conv_rhs => rw [lastWrite_acc]
    cases lastWrite o id ts none with
    | some v => rfl
    | none =>
      simp only
      rw [lookupKey_setKey]
      by_cases ht : t.ID = id <;> simp [ht]

theorem lastWrite_shape (o id : String) (ts : List Tool) (acc : Option Tool)
    (hacc : ∀ v, acc = some v → v.ID = id ∧ v.PluginID = o) :
    ∀ v, lastWrite o id ts acc = some v → v.ID = id ∧ v.PluginID = o := by
  induction ts generalizing acc with
  | nil => exact hacc
  | cons t ts ih =>
    intro v hv
    simp only [lastWrite] at hv
    by_cases ht : t.ID = id
    · rw [if_pos ht] at hv
      refine ih _ ?_ v hv
      intro w hw
      cases hw
      exact ⟨ht, rfl⟩
    · rw [if_neg ht] at hv
      exact ih acc hacc v hv

theorem lastWrite_isSome_mono (o id : String) (ts : List Tool) (acc : Option Tool)
    (h : acc.isSome) : (lastWrite o id ts acc).isSome := by
  induction ts generalizing acc with
  | nil => exact h
  | cons t ts ih =>
    simp only [lastWrite]
    by_cases ht : t.ID = id
    · rw [if_pos ht]
      exact ih (some _) rfl
    · rw [if_neg ht]
      exact ih acc h

theorem lastWrite_isSome_of_mem (o id : String) (ts : List Tool)
    {t : Tool} (ht : t ∈ ts) (hid : t.ID = id) (acc : Option Tool) :
    (lastWrite o id ts acc).isSome := by
  induction ts generalizing acc with
  | nil => cases ht
  | cons u ts ih =>
    simp only [lastWrite]
    rcases List.mem_cons.mp ht with h | h
    · rw [h] at hid
      rw [if_pos hid]
      exact lastWrite_isSome_mono o id ts _ rfl
    · exact ih h _

theorem lastWrite_eq_acc_of_not_mem (o id : String) (ts : List Tool) (acc : Option Tool)
    (h : id ∉ ts.map Tool.ID) : lastWrite o id ts acc = acc := by
  induction ts generalizing acc with
  | nil => rfl
  | cons t ts ih =>
    have ht : t.ID ≠ id := fun hid => h (List.mem_map.mpr ⟨t, List.mem_cons_self t ts, hid⟩)
    have hts : id ∉ ts.map Tool.ID := fun hmem => h (by simp [hmem])
    simpa [lastWrite, ht] using ih acc hts

/-- Tools already stored under ids the fold never writes are untouched. -/
theorem lookupKey_registerFold_not_mem (o id : String) (ts : List Tool)
    (m : List (String × Tool)) (h : id ∉ ts.map Tool.ID) :
    lookupKey (ts.foldl (fun m t => setKey m t.ID { t with PluginID := o }) m) id =
      lookupKey m id := by
  rw [lookupKey_registerFold, lastWrite_eq_acc_of_not_mem o id ts none h]

/-! ## Plugin manager (`internal/plugin/manager.go`)

The SDK session is external I/O: its `ListTools` result and `CallTool`
behaviour are supplied as parameters, the state transitions and the tool
projection are the manager's own code. -/

/-- `mcp.Tool` as returned by the peer's `tools/list` (SDK type). -/
structure MCPTool where
  name : String
  description : String
deriving DecidableEq, Repr

/-- Result of `session.CallTool` (content marshalled to its raw JSON bytes). -/
structure CallOutcome where
  isError : Bool
  result : String
deriving DecidableEq, Repr

/-- The behaviour of one connected `mcp.ClientSession`: what `CallTool` answers
for a given tool name and argument payload. -/
structure SessionModel where
  callTool : String → String → CallOutcome

/-- `plugin.MCPServer`: a connected MCP server owned by the manager. -/
structure MCPServer where
  name : String
  session : SessionModel

/-- `plugin.Manager`: the name→server map plus the shared registry. -/
structure Manager where
  servers : List (String × MCPServer)
  reg : Registry

inductive MgrError
  | alreadyRunning (name : String)
  | connectFailed (name : String)
  | listToolsFailed (name : String)
  | notFound (name : String)
  | toolError
  | executeFailed
deriving DecidableEq, Repr

/-- The projection loop of `Manager.StartServer` (stdio.go:448-456): each
discovered tool becomes a registry `Tool` whose `ID` and `Name` are the
server-local tool name and whose `PluginID` is the owning server's name. -/
def projectRegistryTools (name : String) (discovered : List MCPTool) : List Tool :=
  discovered.map fun tool =>
    { ID := tool.name, Name := tool.name, Description := tool.description, PluginID := name }

/-- `Manager.StartServer name cfg`: fail with AlreadyRunning if the name is
taken; connect (outcome `connectOk` supplied); list tools (`toolsResult`
supplied, `none` = failure, upon which the session is closed and nothing is
registered); project and register the tools; store the server. -/
def StartServer (m : Manager) (name : String) (sess : SessionModel)
    (connectOk : Bool) (toolsResult : Option (List MCPTool)) : Except MgrError Manager :=
  if (lookupKey m.servers name).isSome then .error (.alreadyRunning name)
  else if !connectOk then .error (.connectFailed name)
  else
    match toolsResult with
    | none => .error (.listToolsFailed name)
    | some discovered =>
      let registryTools := projectRegistryTools name discovered
      .ok { servers := setKey m.servers name ⟨name, sess⟩,
            reg := RegisterTools m.reg name registryTools }

/-- Externally visible side effects of `Manager.StopServer`, in program order. -/
inductive MgrEvent
  | unregisterToolsEv (name : String)
  | closeSessionEv (name : String)
deriving DecidableEq, Repr

/-- `Manager.StopServer name`: NotFound if no such session; otherwise delete the
map entry, unregister the server's tools, and only then close the session
(the returned event list preserves the statement order of stdio.go:535-542). -/
def StopServer (m : Manager) (name : String) : Except MgrError (Manager × List MgrEvent) :=
  match lookupKey m.servers name with
  | none => .error (.notFound name)
  | some _ =>
      .ok ({ servers := removeKey m.servers name, reg := UnregisterTools m.reg name },
           [.unregisterToolsEv name, .closeSessionEv name])

/-- `Manager.Execute`: look up the session by plugin id (NotFound on a miss),
dispatch `CallTool`, and fail when the peer set `isError` on the result.
(JSON decoding of `arguments` and re-encoding of the result are modelled as
the identity on the payload strings.) -/
def Execute (m : Manager) (pluginID toolName arguments : String) : Except MgrError String :=
  match lookupKey m.servers pluginID with
  | none => .error (.notFound pluginID)
  | some server =>
      let result := server.session.callTool toolName arguments
      if result.isError then .error .toolError else .ok result.result

/-! ## Config model (`internal/config/config.go`) -/

/-- `config.ServerConfig`, all fields.  `env`, `headers` and `volumes` are Go
string maps, modelled as association lists. -/
structure ServerConfig where
  disabled : Bool
  timeout : Nat
  env : List (String × String)
  type : String
  command : String
  args : List String
  url : String
  headers : List (String × String)
  image : String
  volumes : List (String × String)
  network : String
  transport : String
deriving DecidableEq, Repr

/-- `config.Config`: the `mcpServers` name→entry map. -/
abbrev Config : Type := List (String × ServerConfig)

/-- `normalizeTransport`: lower-case, trim, and fold aliases. -/
def normalizeTransport (t : String) : String :=
  let t := t.trim.toLower
  if t = "stdio" then "stdio"
  else if t = "sse" then "sse"
  else if t = "http" ∨ t = "streamable-http" ∨ t = "streamablehttp" then "http"
  else if t = "docker" ∨ t = "container" then "docker"
  else t

/-- `ServerConfig.TransportType`: explicit `type`, then legacy `transport`, then
inference from which fields are populated, defaulting to stdio. -/
def transportType (s : ServerConfig) : String :=
  if s.type ≠ "" then normalizeTransport s.type
  else if s.transport ≠ "" then normalizeTransport s.transport
  else if s.image ≠ "" then "docker"
  else if s.url ≠ "" then "http"
  else if s.command ≠ "" then "stdio"
  else "stdio"

/-- `Config.Validate`: first failing entry wins; disabled entries are skipped. -/
def validateConfig : Config → Option String
  | [] => none
  | (name, srv) :: rest =>
    if srv.disabled then validateConfig rest
    else
      let tt := transportType srv
      if tt = "stdio" then
        if srv.command = "" then some ("server " ++ name ++ ": command is required for stdio transport")
        else validateConfig rest
      else if tt = "sse" then
        if srv.url = "" then some ("server " ++ name ++ ": url is required for sse transport")
        else validateConfig rest
      else if tt = "http" then
        if srv.url = "" then some ("server " ++ name ++ ": url is required for http transport")
        else validateConfig rest
      else if tt = "docker" then
        if srv.image = "" then some ("server " ++ name ++ ": image is required for docker transport")
        else validateConfig rest
      else some ("server " ++ name ++ ": unsupported transport type: " ++ tt)

/-- `Config.GetEnabledServers`. -/
def getEnabledServers (c : Config) : Config := c.filter fun p => !p.2.disabled

/-- The loop body of `Config.processEnvVars` for one server entry: expand
`expand` (modelling `os.ExpandEnv` under the current process environment) in
env values, command, args, url, header values, image, and volume keys and
values.  The `network` field is not touched by the source (config.go:311-362). -/
def expandServerConfig (expand : String → String) (srv : ServerConfig) : ServerConfig :=
  { srv with
    env := srv.env.map fun e => (e.1, expand e.2)
    command := if srv.command ≠ "" then expand srv.command else srv.command
    args := srv.args.map expand
    url := if srv.url ≠ "" then expand srv.url else srv.url
    headers := srv.headers.map fun e => (e.1, expand e.2)
    image := if srv.image ≠ "" then expand srv.image else srv.image
    volumes := srv.volumes.map fun e => (expand e.1, expand e.2) }

/-- `Config.processEnvVars`: rewrite every server entry in place. -/
def processEnvVars (expand : String → String) (c : Config) : Config :=
  c.map fun p => (p.1, expandServerConfig expand p.2)

theorem lookupKey_map_value {κ β γ : Type} [DecidableEq κ] (F : β → γ)
    (l : List (κ × β)) (k : κ) :
    lookupKey (l.map fun p => (p.1, F p.2)) k = (lookupKey l k).map F := by
  induction l with
  | nil => rfl
  | cons p l ih =>
    by_cases hp : p.1 = k
    · simp [lookupKey, hp]
    · simp [lookupKey, hp, ih]

/-! ## Config reconciler (`internal/watcher/watcher.go`) -/

/-- The manager calls `Watcher.applyConfigChanges` issues, in program order. -/
inductive WatchAction
  | stop (name : String)
  | start (name : String) (cfg : ServerConfig)
  | reload (name : String) (cfg : ServerConfig)
deriving DecidableEq, Repr

/-- Sorted insertion by key, ordering entries the way `encoding/json` orders the
keys of a marshalled Go map. -/
def insertEntry (p : String × String) : List (String × String) → List (String × String)
  | [] => [p]
  | q :: l => if p.1 < q.1 then p :: q :: l else q :: insertEntry p l

/-- Key-sort of a map's entries, modelling the canonical key order of
`json.Marshal` on a Go map. -/
def sortEntries (l : List (String × String)) : List (String × String) :=
  l.foldr insertEntry []

/-- A `ServerConfig` with its map-valued fields in the canonical key order they
take in the entry's JSON marshalling. -/
def canonicalServerConfig (c : ServerConfig) : ServerConfig :=
  { c with env := sortEntries c.env, headers := sortEntries c.headers,
           volumes := sortEntries c.volumes }

/-- `configEqual`: `reflect.DeepEqual(json.Marshal(a), json.Marshal(b))` —
structural equality of the canonical serializations. -/
def configEqual (a b : ServerConfig) : Bool :=
  decide (canonicalServerConfig a = canonicalServerConfig b)

/-- `Watcher.applyConfigChanges` as the list of manager calls it makes: stop
entries that disappeared or were disabled, then start new entries and reload
entries whose serialization changed. -/
def applyConfigChanges (lastConfig newConfig : Config) : List WatchAction :=
  let oldServers := getEnabledServers lastConfig
  let newServers := getEnabledServers newConfig
  (oldServers.filterMap fun p =>
    if (lookupKey newServers p.1).isNone then some (.stop p.1) else none)
  ++ (newServers.filterMap fun p =>
    match lookupKey oldServers p.1 with
    | none => some (.start p.1 p.2)
    | some oldCfg => if configEqual oldCfg p.2 then none else some (.reload p.1 p.2))

/-- The watcher's only mutable state: the last config snapshot it applied. -/
structure WatcherState where
  lastConfig : Config

/-- `Watcher.handleConfigChange`: `loaded` is the outcome of `config.Load` on
the changed file (`none` = read/parse error).  On load or validation failure
nothing happens; otherwise the diff actions run (each failure — `fails` —
is only logged and never stops the walk) and the new config is committed as
the last-applied snapshot unconditionally. -/
def handleConfigChange (w : WatcherState) (loaded : Option Config)
    (fails : WatchAction → Bool) : WatcherState × List WatchAction :=
  match loaded with
  | none => (w, [])
  | some newConfig =>
    match validateConfig newConfig with
    | some _ => (w, [])
    | none =>
      let actions := applyConfigChanges w.lastConfig newConfig
      let _loggedFailures := actions.countP fails
      ({ lastConfig := newConfig }, actions)

/-! ## Line-oriented transports (`internal/transport/stdio.go`, `docker.go`) -/

/-- One JSON-RPC envelope on the wire; `id = none` is a notification. -/
structure Envelope where
  id : Option Int
  body : String
deriving DecidableEq, Repr

/-- State of a line-delimited stdio/container transport: the connected flag,
the complete lines available on the child's stdout, and the lines written to
its stdin. -/
structure LineTransportState where
  connected : Bool
  inbox : List Envelope
  written : List Envelope
deriving DecidableEq, Repr

inductive TransportError
  | notConnected
  | readFailed
  | timeoutExpired
deriving DecidableEq, Repr

/-- `StdioTransport.SendRequest`: check connected, write the request line, then
return the next line `reader.ReadBytes` produces — whatever envelope it is.
An empty inbox models the reader failing (EOF) before any line arrives. -/
def stdioSendRequest (t : LineTransportState) (req : Envelope) :
    Except TransportError Envelope × LineTransportState :=
  if !t.connected then (.error .notConnected, t)
  else
    let t := { t with written := t.written ++ [req] }
    match t.inbox with
    | [] => (.error .readFailed, t)
    | line :: rest => (.ok line, { t with inbox := rest })

/-- `DockerTransport.SendRequest`: identical read loop over the container's
stdio (docker.go:142-193). -/
def dockerSendRequest (t : LineTransportState) (req : Envelope) :
    Except TransportError Envelope × LineTransportState :=
  if !t.connected then (.error .notConnected, t)
  else
    let t := { t with written := t.written ++ [req] }
    match t.inbox with
    | [] => (.error .readFailed, t)
    | line :: rest => (.ok line, { t with inbox := rest })

/-- The timeout both `SendRequest`s arm (`stdio.go:148-151`, `docker.go:178-180`):
the transport default, overridden by the caller's remaining deadline whenever
the context carries one. -/
def appliedTimeout (transportTimeout : Nat) (ctxRemaining : Option Nat) : Nat :=
  match ctxRemaining with
  | some remaining => remaining
  | none => transportTimeout

/-- Upper bound on the wait of the `select` that races the armed
`time.After(timeout)` against `ctx.Done()`: with a caller deadline the first
of the two fires at `min timeout remaining`; without one only the armed timer
bounds the wait. -/
def effectiveWaitBound (transportTimeout : Nat) (ctxRemaining : Option Nat) : Nat :=
  match ctxRemaining with
  | some remaining => min (appliedTimeout transportTimeout (some remaining)) remaining
  | none => appliedTimeout transportTimeout none

/-! ## SSE transport reader (`internal/transport/sse.go`) -/

/-- A JSON-RPC correlation id as `encoding/json` decodes it into `interface{}`:
a number (`float64`, integral here) or a string. -/
inductive RPCID
  | num (n : Int)
  | str (s : String)
deriving DecidableEq, Repr

/-- A parsed `mcp.JSONRPCResponse` arriving on the event stream. -/
structure SSEMessage where
  id : Option RPCID
  result : String
deriving DecidableEq, Repr

/-- Outcome of running `handleSSEMessage` on one event: the updated pending
table, or a runtime panic of the reading goroutine. -/
inductive HandleResult
  | ok (slots : List (Int × Option String))
  | panicked
deriving DecidableEq, Repr

/-- The non-blocking send into the capacity-1 response channel for id `n`. -/
def sendSlot (slots : List (Int × Option String)) (n : Int) (result : String) :
    List (Int × Option String) :=
  slots.map fun p =>
    if p.1 = n then
      (p.1, match p.2 with
            | none => some result
            | some s => some s)
    else p

/-- `SSETransport.handleSSEMessage` (sse.go:135-153): skip envelopes without an
id; with a numeric id, route `msg.Result` into the pending slot (non-blocking)
or silently drop when no slot is registered; with a string id the unchecked
type assertion `msg.ID.(float64)` panics. -/
def handleSSEMessage (slots : List (Int × Option String)) (msg : SSEMessage) : HandleResult :=
  match msg.id with
  | none => .ok slots
  | some (.num n) =>
    match lookupKey slots n with
    | none => .ok slots
    | some _ => .ok (sendSlot slots n msg.result)
  | some (.str _) => .panicked

theorem tools_RegisterTools (r : Registry) (o : String) (ts : List Tool) :
    (RegisterTools r o ts).tools =
      ts.foldl (fun m t => setKey m t.ID { t with PluginID := o }) r.tools := rfl

theorem tools_UnregisterTools (r : Registry) (o : String) :
    (UnregisterTools r o).tools = r.tools.filter fun p => p.2.PluginID ≠ o := rfl

/-! ## Claims -/

/-- C1 (counterexample): starting server `echo` whose peer reports one tool
`echo` does not register any tool under the namespaced id `echo:echo`; the
registry binding is keyed by the bare tool name `echo`. -/
theorem C1_counterexample :
    (StartServer ⟨[], Registry.empty⟩ "echo" ⟨fun _ _ => ⟨false, ""⟩⟩ true
        (some [⟨"echo", "d"⟩])).map
        (fun m' => (lookupKey m'.reg.tools "echo:echo", lookupKey m'.reg.tools "echo"))
      = .ok (none, some ⟨"echo", "echo", "d", "echo"⟩) := by
  rfl

/-- C1 (amended): every tool discovered by a successful `startServer(name, …)`
is registered in the registry under an id equal to the bare server-local tool
name (not `name + ":" + toolName`), with `PluginID` recording the owning
server; the namespaced form is produced only by the downstream re-export
adapter, so registry ids are not globally unique across servers. -/
theorem C1_startServer_registers_bare_ids (m : Manager) (name : String)
    (sess : SessionModel) (connectOk : Bool) (discovered : List MCPTool) (m' : Manager)
    (h : StartServer m name sess connectOk (some discovered) = .ok m')
    (tool : MCPTool) (ht : tool ∈ discovered) :
    ∃ t, lookupKey m'.reg.tools tool.name = some t ∧ t.ID = tool.name ∧
      t.PluginID = name := by
  cases hl : lookupKey m.servers name with
  | some srv => simp [StartServer, hl] at h
  | none =>
    cases connectOk with
    | false => simp [StartServer, hl] at h
    | true =>
      simp [StartServer, hl] at h
      subst h
      have hmem : (⟨tool.name, tool.name, tool.description, name⟩ : Tool)
          ∈ projectRegistryTools name discovered :=
        List.mem_map.mpr ⟨tool, ht, rfl⟩
      have hsome :=
        lastWrite_isSome_of_mem name tool.name (projectRegistryTools name discovered) hmem rfl none
      obtain ⟨v, hv⟩ := Option.isSome_iff_exists.mp hsome
      have hshape :=
        lastWrite_shape name tool.name (projectRegistryTools name discovered) none
          (by intro w hw; cases hw) v hv
      refine ⟨v, ?_, hshape.1, hshape.2⟩
      show lookupKey
          (RegisterTools m.reg name (projectRegistryTools name discovered)).tools tool.name
        = some v
      rw [tools_RegisterTools, lookupKey_registerFold, hv]

/-- C1 (witness): concrete application — server `echo`, one discovered tool
`echo`, registered under the bare id `echo` with owner `echo`. -/
theorem C1_startServer_registers_bare_ids_witness :
    ∃ t, lookupKey
        (Manager.mk [("echo", ⟨"echo", ⟨fun _ _ => ⟨false, ""⟩⟩⟩)]
          ⟨[("echo", ⟨"echo", "echo", "d", "echo"⟩)], []⟩).reg.tools "echo" = some t ∧
      t.ID = "echo" ∧ t.PluginID = "echo" :=
  C1_startServer_registers_bare_ids ⟨[], Registry.empty⟩ "echo" ⟨fun _ _ => ⟨false, ""⟩⟩
    true [⟨"echo", "d"⟩] _ rfl ⟨"echo", "d"⟩ (List.mem_cons_self _ _)

/-- C10: after `RegisterTools o ts` (i) every id written by `ts` maps to a tool
whose `PluginID` is `o` whatever `PluginID` the input carried, (ii) ids not
occurring in `ts` keep their previous binding (registration replaces by id),
and (iii) registering the same batch twice leaves the tool map pointwise equal
to registering it once. -/
theorem C10_registerTools_keyed_idempotent (r : Registry) (o : String) (ts : List Tool) :
    (∀ id, id ∈ ts.map Tool.ID →
      ∃ t, lookupKey (RegisterTools r o ts).tools id = some t ∧ t.ID = id ∧ t.PluginID = o) ∧
    (∀ id, id ∉ ts.map Tool.ID →
      lookupKey (RegisterTools r o ts).tools id = lookupKey r.tools id) ∧
    (∀ id, lookupKey (RegisterTools (RegisterTools r o ts) o ts).tools id =
      lookupKey (RegisterTools r o ts).tools id) := by
  refine ⟨?_, ?_, ?_⟩
  · intro id hid
    obtain ⟨t, htmem, htid⟩ := List.mem_map.mp hid
    have hsome := lastWrite_isSome_of_mem o id ts htmem htid none
    obtain ⟨v, hv⟩ := Option.isSome_iff_exists.mp hsome
    have hshape := lastWrite_shape o id ts none (by intro w hw; cases hw) v hv
    refine ⟨v, ?_, hshape.1, hshape.2⟩
    rw [tools_RegisterTools, lookupKey_registerFold, hv]
  · intro id hid
    rw [tools_RegisterTools, lookupKey_registerFold_not_mem o id ts r.tools hid]
  · intro id
    rw [tools_RegisterTools, tools_RegisterTools, lookupKey_registerFold,
      lookupKey_registerFold]
    cases lastWrite o id ts none <;> rfl

/-- C10 (witness): registering `[⟨x, x, d, zzz⟩]` for owner `a` stores the tool
under id `x` with `PluginID = a`. -/
theorem C10_registerTools_keyed_idempotent_witness :
    ∃ t, lookupKey (RegisterTools Registry.empty "a" [⟨"x", "x", "d", "zzz"⟩]).tools "x"
        = some t ∧ t.ID = "x" ∧ t.PluginID = "a" :=
  (C10_registerTools_keyed_idempotent Registry.empty "a" [⟨"x", "x", "d", "zzz"⟩]).1
    "x" (by simp)

/-- C2 (counterexample): subscribe to the empty registry (initial snapshot `[]`
queued), then register one tool.  The broadcast's non-blocking send finds the
subscriber's buffer full and drops the new snapshot: the queued snapshot stays
`[]` while `list()` now holds the tool, so the last snapshot available to the
subscriber does not equal the registry state. -/
theorem C2_counterexample :
    (RegisterTools (Subscribe Registry.empty) "a" [⟨"t", "t", "", "a"⟩]).subs
        = [⟨some []⟩] ∧
    sliceLocked (RegisterTools (Subscribe Registry.empty) "a" [⟨"t", "t", "", "a"⟩])
        = [⟨"t", "t", "", "a"⟩] ∧
    (⟨"t", "t", "", "a"⟩ : Tool) ∉ ([] : List Tool) := by
  decide

/-- C2 (amended): after any `registerTools`/`unregisterTools` call, a subscriber
whose buffer was empty has the snapshot of the new registry state queued, but
a subscriber with an unconsumed snapshot keeps that older snapshot unchanged —
the broadcast drops (not replaces) the new one, so a slow subscriber's queued
snapshot may be stale. -/
theorem C2_broadcast_drops_when_full (r : Registry) (op : RegOp) (i : Nat) (ch : SubChan)
    (hch : r.subs[i]? = some ch) :
    ∃ ch', (applyOp r op).subs[i]? = some ch' ∧
      (ch.buf = none → ch'.buf = some (sliceLocked (applyOp r op))) ∧
      (∀ s, ch.buf = some s → ch'.buf = some s) := by
  refine ⟨sendBestEffort (sliceLocked (applyOp r op)) ch, ?_, ?_, ?_⟩
  · rw [subs_applyOp, List.getElem?_map, hch]
    rfl
  · intro h1
    simp [sendBestEffort, h1]
  · intro s hs
    simp [sendBestEffort, hs]

/-- C2 (witness): a subscriber that consumed its snapshot (empty buffer) gets
the fresh snapshot queued by the register broadcast. -/
theorem C2_broadcast_drops_when_full_witness :
    ∃ ch', (applyOp ⟨[], [⟨none⟩]⟩ (.register "a" [⟨"t", "t", "", "a"⟩])).subs[0]?
        = some ch' ∧
      ((⟨none⟩ : SubChan).buf = none →
        ch'.buf = some (sliceLocked (applyOp ⟨[], [⟨none⟩]⟩ (.register "a" [⟨"t", "t", "", "a"⟩])))) ∧
      (∀ s, (⟨none⟩ : SubChan).buf = some s → ch'.buf = some s) :=
  C2_broadcast_drops_when_full ⟨[], [⟨none⟩]⟩ (.register "a" [⟨"t", "t", "", "a"⟩]) 0 ⟨none⟩ rfl

/-- C3 (counterexample): with a notification line queued ahead of the matching
response on the reader, `SendRequest` (stdio and container alike) returns the
notification — an envelope whose id (`none`) differs from the request id `1` —
and leaves the id-1 response in the reader for the next caller instead of
consuming or discarding it. -/
theorem C3_counterexample :
    (stdioSendRequest ⟨true, [⟨none, "notification"⟩, ⟨some 1, "response"⟩], []⟩
        ⟨some 1, "request"⟩).1 = .ok ⟨none, "notification"⟩ ∧
    ((none : Option Int) ≠ some 1) ∧
    (stdioSendRequest ⟨true, [⟨none, "notification"⟩, ⟨some 1, "response"⟩], []⟩
        ⟨some 1, "request"⟩).2.inbox = [⟨some 1, "response"⟩] ∧
    (dockerSendRequest ⟨true, [⟨none, "notification"⟩, ⟨some 1, "response"⟩], []⟩
        ⟨some 1, "request"⟩).1 = .ok ⟨none, "notification"⟩ := by
  exact ⟨rfl, by decide, rfl, rfl⟩

/-- C3 (amended): on the line-oriented transports (stdio and container), each
`SendRequest` writes the request and then delivers the next complete line of
the reader as the response, whatever its correlation id — exactly one envelope
is consumed per call, no routing by id happens, and any further envelopes
(including ones carrying the request's id) stay queued for later calls.  Both
transports implement the identical read loop. -/
theorem C3_sendRequest_returns_next_line (t : LineTransportState) (req e : Envelope)
    (rest : List Envelope) (hc : t.connected = true) (hi : t.inbox = e :: rest) :
    (stdioSendRequest t req).1 = .ok e ∧
    (stdioSendRequest t req).2.inbox = rest ∧
    (stdioSendRequest t req).2.written = t.written ++ [req] ∧
    dockerSendRequest t req = stdioSendRequest t req := by
  simp [stdioSendRequest, dockerSendRequest, hc, hi]

/-- C3 (witness): a connected transport with one queued line hands that line
back as the response. -/
theorem C3_sendRequest_returns_next_line_witness :
    (stdioSendRequest ⟨true, [⟨some 7, "late"⟩], []⟩ ⟨some 2, "req"⟩).1
        = .ok ⟨some 7, "late"⟩ :=
  (C3_sendRequest_returns_next_line ⟨true, [⟨some 7, "late"⟩], []⟩ ⟨some 2, "req"⟩
    ⟨some 7, "late"⟩ [] rfl rfl).1

/-- C4 (counterexample): with transport default 30 and caller deadline 60 the
armed timeout is 60 — the caller's deadline, not `min 30 60 = 30` — and the
select's effective wait bound is also 60, so the request can wait past the
transport default. -/
theorem C4_counterexample :
    appliedTimeout 30 (some 60) = 60 ∧
    effectiveWaitBound 30 (some 60) = 60 ∧
    min 30 60 = 30 ∧ (60 ≠ 30) := by
  decide

/-- C4 (amended): the timeout applied while waiting equals the caller's
remaining deadline whenever the context carries one, and the transport default
only when it does not; in particular a caller deadline longer than the
transport default extends the wait beyond the transport default rather than
being clipped to it. -/
theorem C4_timeout_is_deadline_override (transportTimeout remaining : Nat) :
    appliedTimeout transportTimeout (some remaining) = remaining ∧
    appliedTimeout transportTimeout none = transportTimeout ∧
    effectiveWaitBound transportTimeout (some remaining) = remaining ∧
    effectiveWaitBound transportTimeout none = transportTimeout ∧
    (transportTimeout < remaining →
      transportTimeout < effectiveWaitBound transportTimeout (some remaining)) := by
  refine ⟨rfl, rfl, ?_, rfl, ?_⟩
  · simp [effectiveWaitBound, appliedTimeout]
  · intro hlt
    simpa [effectiveWaitBound, appliedTimeout] using hlt

/-- C4 (witness): transport default 30, caller deadline 60 — the wait bound 60
exceeds the transport default. -/
theorem C4_timeout_is_deadline_override_witness :
    30 < effectiveWaitBound 30 (some 60) :=
  (C4_timeout_is_deadline_override 30 60).2.2.2.2 (by decide)

/-- C5: the event-stream reader's `handleSSEMessage` routes numeric-id
envelopes into the pending slot (or silently discards them when no slot is
registered) and skips envelopes without an id, but an envelope whose id is a
JSON string hits the unchecked type assertion `msg.ID.(float64)` and panics —
the handling is not total over the id shapes a well-formed JSON-RPC envelope
may carry, contradicting the claim; the claim matches the evident intent
(route or silently discard) and the code is the slip. -/
theorem C5_sse_reader_panics_on_string_id :
    handleSSEMessage [(1, none)] ⟨some (.str "abc"), "{}"⟩ = .panicked ∧
    handleSSEMessage [(1, none)] ⟨some (.num 1), "res"⟩ = .ok [(1, some "res")] ∧
    handleSSEMessage [(1, none)] ⟨some (.num 2), "res"⟩ = .ok [(1, none)] ∧
    handleSSEMessage [(1, none)] ⟨none, "res"⟩ = .ok [(1, none)] := by
  decide

/-- C6: `stopServer(name)` returns NotFound when no session with that name
exists; on success it emits the unregister of the server's tools strictly
before the session close, leaves no tool owned by `name` in the registry, and
makes every subsequent `execute(name, …)` fail with NotFound. -/
theorem C6_stopServer_unregisters_then_closes (m : Manager) (n : String) :
    (lookupKey m.servers n = none → StopServer m n = .error (.notFound n)) ∧
    (∀ m' evs, StopServer m n = .ok (m', evs) →
      (∀ p, p ∈ m'.reg.tools → p.2.PluginID ≠ n) ∧
      evs = [MgrEvent.unregisterToolsEv n, MgrEvent.closeSessionEv n] ∧
      (∀ tool args, Execute m' n tool args = .error (.notFound n))) := by
  constructor
  · intro h
    simp [StopServer, h]
  · intro m' evs h
    unfold StopServer at h
    cases hl : lookupKey m.servers n with
    | none => rw [hl] at h; cases h
    | some srv =>
      rw [hl] at h
      injection h with h1
      injection h1 with hm he
      subst hm
      subst he
      refine ⟨?_, rfl, ?_⟩
      · intro p hp
        rw [tools_UnregisterTools] at hp
        simp only [List.mem_filter] at hp
        exact of_decide_eq_true hp.2
      · intro tool args
        simp [Execute, lookupKey_removeKey_self]

/-- C6 (witness): stopping the only server `a` empties its tools and makes
`execute("a", …)` fail NotFound. -/
theorem C6_stopServer_unregisters_then_closes_witness :
    Execute ⟨[], ⟨[], []⟩⟩ "a" "echo" "{}" = .error (.notFound "a") :=
  ((C6_stopServer_unregisters_then_closes
      ⟨[("a", ⟨"a", ⟨fun _ _ => ⟨false, "ok"⟩⟩⟩)], ⟨[("t", ⟨"t", "t", "", "a"⟩)], []⟩⟩ "a").2
    ⟨[], ⟨[], []⟩⟩ [MgrEvent.unregisterToolsEv "a", MgrEvent.closeSessionEv "a"] rfl).2.2
    "echo" "{}"

/-- C7: reconciling a validated config against an identical snapshot produces
no actions at all — no StopServer, StartServer, or ReloadServer call. -/
theorem C7_reconcile_identical_noop (c : Config) (hnd : (c.map Prod.fst).Nodup) :
    applyConfigChanges c c = [] := by
  have hsub : List.Sublist ((getEnabledServers c).map Prod.fst) (c.map Prod.fst) :=
    (List.filter_sublist c).map Prod.fst
  have hnd' : ((getEnabledServers c).map Prod.fst).Nodup := hnd.sublist hsub
  simp only [applyConfigChanges]
  rw [List.append_eq_nil]
  constructor
  · rw [List.filterMap_eq_nil_iff]
    intro p hp
    cases p with
    | mk name cfgv =>
      have hs : (lookupKey (getEnabledServers c) name).isSome :=
        lookupKey_isSome_of_mem hp
      obtain ⟨v, hv⟩ := Option.isSome_iff_exists.mp hs
      simp [hv]
  · rw [List.filterMap_eq_nil_iff]
    intro p hp
    cases p with
    | mk name cfgv =>
      have hv : lookupKey (getEnabledServers c) name = some cfgv :=
        lookupKey_eq_of_mem_nodup hnd' hp
      simp [hv, configEqual]

/-- C7 (witness): a one-server config reconciled against itself yields no
actions. -/
theorem C7_reconcile_identical_noop_witness :
    applyConfigChanges [("a", ⟨false, 0, [], "", "run", [], "", [], "", [], "", ""⟩)]
        [("a", ⟨false, 0, [], "", "run", [], "", [], "", [], "", ""⟩)] = [] :=
  C7_reconcile_identical_noop [("a", ⟨false, 0, [], "", "run", [], "", [], "", [], "", ""⟩)]
    (by decide)

/-- C8: a config-file change whose load or validation fails leaves the
last-applied snapshot untouched and triggers no manager action; when
validation succeeds the new config is committed as the last-applied snapshot,
and the result does not depend on which per-name actions fail (failures are
only logged). -/
theorem C8_reload_failure_atomic_commit (w : WatcherState)
    (fails fails' : WatchAction → Bool) :
    (handleConfigChange w none fails = (w, [])) ∧
    (∀ cfg, (validateConfig cfg).isSome →
      handleConfigChange w (some cfg) fails = (w, [])) ∧
    (∀ cfg, validateConfig cfg = none →
      (handleConfigChange w (some cfg) fails).1.lastConfig = cfg ∧
      handleConfigChange w (some cfg) fails = handleConfigChange w (some cfg) fails') := by
  refine ⟨rfl, ?_, ?_⟩
  · intro cfg hv
    obtain ⟨e, he⟩ := Option.isSome_iff_exists.mp hv
    simp [handleConfigChange, he]
  · intro cfg hv
    exact ⟨by simp [handleConfigChange, hv], by simp [handleConfigChange, hv]⟩

/-- C8 (witness): an invalid config (stdio entry with empty command) is
rejected and the previous snapshot survives. -/
theorem C8_reload_failure_atomic_commit_witness :
    handleConfigChange ⟨[]⟩
        (some [("s", ⟨false, 0, [], "", "", [], "", [], "", [], "", ""⟩)])
        (fun _ => true) = (⟨[]⟩, []) :=
  (C8_reload_failure_atomic_commit ⟨[]⟩ (fun _ => true) (fun _ => false)).2.1
    [("s", ⟨false, 0, [], "", "", [], "", [], "", [], "", ""⟩)] (by decide)

/-- C9 (counterexample): with the environment mapping `${NET}` to `mcpnet`,
loading a config whose `network` field is `${NET}` leaves the field as the
literal `${NET}` — `processEnvVars` never expands the network field. -/
theorem C9_counterexample :
    (processEnvVars (fun s => if s = "${NET}" then "mcpnet" else s)
        [("srv", ⟨false, 0, [], "", "", [], "", [], "img", [], "${NET}", ""⟩)]).map
        (fun p => p.2.network) = ["${NET}"] ∧
    (fun s : String => if s = "${NET}" then "mcpnet" else s) "${NET}" = "mcpnet" ∧
    ("${NET}" : String) ≠ "mcpnet" := by
  exact ⟨rfl, by decide, by decide⟩

/-- C9 (amended): config loading rewrites every server entry by expanding
variable references in env values, command, each arg, url, header values,
image, and volume keys and values — but the `network` field is left exactly
as written. -/
theorem C9_processEnvVars_skips_network (expand : String → String) (c : Config)
    (name : String) (srv : ServerConfig)
    (hnd : (c.map Prod.fst).Nodup) (hmem : (name, srv) ∈ c) :
    lookupKey (processEnvVars expand c) name = some (expandServerConfig expand srv) ∧
    (expandServerConfig expand srv).env = srv.env.map (fun e => (e.1, expand e.2)) ∧
    (expandServerConfig expand srv).command
      = (if srv.command ≠ "" then expand srv.command else srv.command) ∧
    (expandServerConfig expand srv).args = srv.args.map expand ∧
    (expandServerConfig expand srv).url
      = (if srv.url ≠ "" then expand srv.url else srv.url) ∧
    (expandServerConfig expand srv).headers = srv.headers.map (fun e => (e.1, expand e.2)) ∧
    (expandServerConfig expand srv).image
      = (if srv.image ≠ "" then expand srv.image else srv.image) ∧
    (expandServerConfig expand srv).volumes
      = srv.volumes.map (fun e => (expand e.1, expand e.2)) ∧
    (expandServerConfig expand srv).network = srv.network := by
  refine ⟨?_, rfl, rfl, rfl, rfl, rfl, rfl, rfl, rfl⟩
  unfold processEnvVars
  rw [lookupKey_map_value, lookupKey_eq_of_mem_nodup hnd hmem]
  rfl

/-- C9 (witness): one github-style entry with a token reference in an env
value is rewritten through the expansion while staying findable by name. -/
theorem C9_processEnvVars_skips_network_witness :
    lookupKey (processEnvVars (fun s => if s = "${TOK}" then "abc123" else s)
        [("github", ⟨false, 0, [("T", "${TOK}")], "", "npx", [], "", [], "", [], "", ""⟩)])
        "github"
      = some (expandServerConfig (fun s => if s = "${TOK}" then "abc123" else s)
        ⟨false, 0, [("T", "${TOK}")], "", "npx", [], "", [], "", [], "", ""⟩) :=
  (C9_processEnvVars_skips_network (fun s => if s = "${TOK}" then "abc123" else s)
    [("github", ⟨false, 0, [("T", "${TOK}")], "", "npx", [], "", [], "", [], "", ""⟩)]
    "github" ⟨false, 0, [("T", "${TOK}")], "", "npx", [], "", [], "", [], "", ""⟩
    (by decide) (by decide)).1

end MCPHub
